import Mathlib

/-!
Verification of the covid19 collection / ETL pipeline
(`src/collect/fetch_owid.py` and `src/etl/etl_load.py`).

A pandas DataFrame is modelled as a list of column names together with a
list of rows; a cell is `Option String` (`none` models NaN / SQL NULL).
The sqlite database is modelled as two optional tables; the sqlite3
default of `PRAGMA foreign_keys = OFF` means the foreign-key clause of
`covid_stats` is never enforced at insert time, so the model performs no
referential check on append (only the `locations` primary key is checked,
as an insert of a duplicate key would raise `IntegrityError`).
-/

namespace Covid

/-- A single DataFrame / SQL cell; `none` models pandas NaN and SQL NULL. -/
abbrev Cell := Option String

/-- A pandas DataFrame: named columns and positional rows. -/
structure DF where
  cols : List String
  rows : List (List Cell)
deriving DecidableEq, Repr

/-- Index of the first column named `c`, as pandas column lookup does. -/
def colIdx : List String → String → Option Nat
  | [], _ => none
  | c' :: cs, c => if c' = c then some 0 else (colIdx cs c).map (fun i => i + 1)

/-- Cell at position `i` of a row; out-of-range reads give NULL. -/
def cellAt (row : List Cell) (i : Nat) : Cell :=
  match row.get? i with
  | none => none
  | some v => v

/-- Value of column `c` in a row of a frame with columns `cols`. -/
def getCell (cols : List String) (row : List Cell) (c : String) : Cell :=
  match colIdx cols c with
  | none => none
  | some i => cellAt row i

/-- Re-expresses a row of a frame with columns `dCols` over the column list
`tCols`, as a SQL insert of a narrower frame into a wider table does:
columns absent from the source frame become NULL. -/
def alignRow (dCols : List String) (tCols : List String) (row : List Cell) : List Cell :=
  tCols.map (fun c => getCell dCols row c)

/-- Column projection `df[cs]` of pandas. -/
def project (df : DF) (cs : List String) : DF :=
  { cols := cs, rows := df.rows.map (fun r => alignRow df.cols cs r) }

/-- In-place update of column `c` of one row, as the pandas column
assignment `df[c] = f(df[c])` does row-wise. -/
def updateCol (cols : List String) (row : List Cell) (c : String) (f : Cell → Cell) : List Cell :=
  match colIdx cols c with
  | none => row
  | some i => row.set i (f (cellAt row i))

/-- Decimal digit test on characters. -/
def isDigitCh (c : Char) : Bool := ('0' ≤ c) && (c ≤ '9')

/-- Numeric value of a decimal digit character. -/
def digitVal (c : Char) : Nat := c.toNat - 48

/-- Models `pd.to_datetime(s, errors="coerce")` followed by
`.strftime("%Y-%m-%d")` on the date formats relevant to this dataset:
a `YYYY-MM-DD` or `YYYY/MM/DD` string with a plausible month and day
parses and is rendered in canonical `YYYY-MM-DD` form; anything else is
coerced to NaN (`none`). -/
def parseDate (s : String) : Option String :=
  match s.toList with
  | [y1, y2, y3, y4, s1, m1, m2, s2, d1, d2] =>
    if (s1 == '-' || s1 == '/') && (s2 == '-' || s2 == '/') &&
       isDigitCh y1 && isDigitCh y2 && isDigitCh y3 && isDigitCh y4 &&
       isDigitCh m1 && isDigitCh m2 && isDigitCh d1 && isDigitCh d2 &&
       (1 ≤ digitVal m1 * 10 + digitVal m2) && (digitVal m1 * 10 + digitVal m2 ≤ 12) &&
       (1 ≤ digitVal d1 * 10 + digitVal d2) && (digitVal d1 * 10 + digitVal d2 ≤ 31) then
      some (String.mk [y1, y2, y3, y4, '-', m1, m2, '-', d1, d2])
    else none
  | _ => none

/-- The `loc_cols` list of `load_data`: the static country columns. -/
def locCols : List String :=
  ["iso_code", "continent", "location", "population", "population_density",
   "median_age", "aged_65_older", "aged_70_older", "gdp_per_capita",
   "extreme_poverty", "cardiovasc_death_rate", "diabetes_prevalence",
   "female_smokers", "male_smokers", "handwashing_facilities",
   "hospital_beds_per_thousand", "life_expectancy", "human_development_index"]

/-- The extra exclusion list of the `stat_cols` comprehension in `load_data`. -/
def extraCols : List String := ["continent", "location", "population"]

/-- Columns of the `covid_stats` table created by `create_schema`
(the store-generated auto-increment surrogate `id` is omitted: it is
assigned by the engine, never supplied by the loader). -/
def covidStatsCols : List String :=
  ["iso_code", "date", "total_cases", "new_cases", "new_cases_smoothed",
   "total_deaths", "new_deaths", "new_deaths_smoothed",
   "total_cases_per_million", "new_cases_per_million",
   "new_cases_smoothed_per_million", "total_deaths_per_million",
   "new_deaths_per_million", "new_deaths_smoothed_per_million",
   "reproduction_rate", "icu_patients", "icu_patients_per_million",
   "hosp_patients", "hosp_patients_per_million", "weekly_icu_admissions",
   "weekly_icu_admissions_per_million", "weekly_hosp_admissions",
   "weekly_hosp_admissions_per_million", "total_tests", "new_tests",
   "total_tests_per_thousand", "new_tests_per_thousand",
   "new_tests_smoothed", "new_tests_smoothed_per_thousand",
   "positive_rate", "tests_per_case", "tests_units", "total_vaccinations",
   "people_vaccinated", "people_fully_vaccinated", "total_boosters",
   "new_vaccinations", "new_vaccinations_smoothed",
   "total_vaccinations_per_hundred", "people_vaccinated_per_hundred",
   "people_fully_vaccinated_per_hundred", "total_boosters_per_hundred",
   "new_vaccinations_smoothed_per_million", "new_people_vaccinated_smoothed",
   "new_people_vaccinated_smoothed_per_hundred", "stringency_index",
   "excess_mortality_cumulative_absolute", "excess_mortality_cumulative",
   "excess_mortality", "excess_mortality_cumulative_per_million"]

/-- Step (a) of `load_data`: `df.dropna(subset=["iso_code", "date"])`. -/
def dropnaIsoDate (df : DF) : DF :=
  { df with rows := df.rows.filter (fun r =>
      (getCell df.cols r "iso_code").isSome && (getCell df.cols r "date").isSome) }

/-- Step (b) of `load_data`:
`df["date"] = pd.to_datetime(df["date"], errors="coerce").dt.strftime("%Y-%m-%d")`. -/
def setDateNorm (df : DF) : DF :=
  { df with rows := df.rows.map (fun r =>
      updateCol df.cols r "date" (fun c => c.bind parseDate)) }

/-- The `stat_cols` comprehension of `load_data`:
columns of `df` neither in `loc_cols` nor in the extra exclusion list. -/
def statColsOf (df : DF) : List String :=
  df.cols.filter (fun c => !(locCols.contains c) && !(extraCols.contains c))

/-- De-duplication keeping the first occurrence per key, the semantics of
`DataFrame.drop_duplicates(subset=…)` with the default `keep="first"`;
`seen` accumulates keys of rows already emitted. -/
def dropDupByAux {α β : Type} [BEq β] (key : α → β) (seen : List β) : List α → List α
  | [] => []
  | x :: xs =>
    if seen.contains (key x) then dropDupByAux key seen xs
    else x :: dropDupByAux key (key x :: seen) xs

/-- `drop_duplicates` with an initially empty seen-set. -/
def dropDupBy {α β : Type} [BEq β] (key : α → β) (l : List α) : List α :=
  dropDupByAux key [] l

/-- Key used by `drop_duplicates(subset=["iso_code"])` on `df[loc_cols]`. -/
def isoKey (r : List Cell) : Cell := getCell locCols r "iso_code"

/-- The `df_locations` frame of `load_data`:
`df[loc_cols].drop_duplicates(subset=["iso_code"])`. -/
def df_locations (df : DF) : DF :=
  let p := project (setDateNorm (dropnaIsoDate df)) locCols
  { cols := locCols, rows := dropDupBy isoKey p.rows }

/-- The `df_stats` frame of `load_data`: `df[stat_cols]`. -/
def df_stats (df : DF) : DF :=
  project (setDateNorm (dropnaIsoDate df)) (statColsOf df)

/-- A relational table: schema columns and stored rows. -/
structure Table where
  cols : List String
  rows : List (List Cell)
deriving DecidableEq, Repr

/-- The sqlite store: either table may not exist yet. -/
structure Database where
  locations : Option Table
  covidStats : Option Table
deriving DecidableEq, Repr

/-- A store in which neither table has been created. -/
def dbEmpty : Database := { locations := none, covidStats := none }

/-- Duplicate test on a list of key strings. -/
def hasDupB : List String → Bool
  | [] => false
  | x :: xs => xs.contains x || hasDupB xs

/-- Models `DataFrame.to_sql(…, if_exists="append")`: a missing table is
created from the frame; an existing table requires the frame's columns to
be known and appends the frame's rows re-expressed over the table schema.
When `pkCol` names a primary-key column, an insert producing duplicate
non-NULL key values raises `IntegrityError` (and, the insert being one
transaction, nothing is appended). -/
def toSqlAppend (pkCol : Option String) (tOpt : Option Table) (df : DF) :
    Except String Table :=
  match tOpt with
  | none => Except.ok { cols := df.cols, rows := df.rows }
  | some t =>
    if df.cols.all (fun c => t.cols.contains c) then
      let newRows := df.rows.map (fun r => alignRow df.cols t.cols r)
      match pkCol with
      | none => Except.ok { cols := t.cols, rows := t.rows ++ newRows }
      | some pk =>
        if hasDupB (((t.rows ++ newRows).map
            (fun r => getCell t.cols r pk)).filterMap (fun c => c)) then
          Except.error "IntegrityError"
        else Except.ok { cols := t.cols, rows := t.rows ++ newRows }
    else Except.error "OperationalError"

/-- The `create_schema` operation: drops both tables and recreates them
empty with the fixed target columns, whatever the prior state. -/
def create_schema (_db : Database) : Database :=
  { locations := some { cols := locCols, rows := [] },
    covidStats := some { cols := covidStatsCols, rows := [] } }

/-- The `load_data` operation: drop rows missing `iso_code` or `date`,
normalize the date column, split into `df_locations` / `df_stats`, and
append both frames to the store.  Missing mandatory columns surface as
the `KeyError` pandas raises. -/
def load_data (db : Database) (df : DF) : Except String Database :=
  if df.cols.contains "iso_code" && df.cols.contains "date" then
    if locCols.all (fun c => df.cols.contains c) then
      match toSqlAppend (some "iso_code") db.locations (df_locations df) with
      | Except.error e => Except.error e
      | Except.ok lt =>
        match toSqlAppend none db.covidStats (df_stats df) with
        | Except.error e => Except.error e
        | Except.ok st =>
          Except.ok { locations := some lt, covidStats := some st }
    else Except.error "KeyError: loc_cols"
  else Except.error "KeyError: dropna subset"

/-- The newline separator used when splitting a CSV payload into lines. -/
def nl : String := "\x0A"

/-- Number of comma-separated fields of one CSV line. -/
def fieldCount (line : String) : Nat := (line.splitOn ",").length

/-- Models `pd.read_csv(BytesIO(b), nrows=10)` succeeding: the payload has
a header line, and none of the first ten data lines is wider than the
header (the pandas tokenizer errors only on over-wide rows; narrow rows
are NaN-padded).  Blank lines are skipped as pandas does. -/
def parseOkSample (b : String) : Bool :=
  match (b.splitOn nl).filter (fun l => !(l == "")) with
  | [] => false
  | header :: rest => (rest.take 10).all (fun l => fieldCount l ≤ fieldCount header)

/-- The `validate_csv_bytes` check of the collector: payloads shorter than
1000 bytes are rejected; otherwise a ten-row sample must parse. -/
def validate_csv_bytes (b : String) : Bool :=
  if b.length < 1000 then false
  else parseOkSample b

/-- Provenance digest of a payload.  The claims never depend on the hash
value, only on it being a function of the exact bytes, so SHA-256 is
modelled by an injective placeholder of the payload. -/
def digestModel (b : String) : String := b

/-- Per-source behaviour of one collector iteration, with the three
fallible effects (network fetch, file write, post-write profiling) made
explicit; `Except.error` models the Python exception the step raises. -/
structure SourceBehavior where
  name : String
  fetchResult : Except String String
  saveResult : Except String String
  profileResult : Except String (Nat × Nat)
deriving Repr

/-- One row appended to `collect_history.csv` for a processed source
(the wall-clock `ts_paris` field is elided). -/
structure RunResult where
  name : String
  path : String
  sha : String
  rowCount : Nat
  colCount : Nat
deriving DecidableEq, Repr

/-- The body of the collector's `for name, url in SOURCES.items()` loop:
any raising step is caught by the per-source `except`, a failed
validation hits `continue`; either way the source contributes nothing
and the loop proceeds. -/
def collectLoop : List SourceBehavior → List RunResult
  | [] => []
  | s :: rest =>
    (match s.fetchResult with
     | Except.error _ => []
     | Except.ok b =>
       if validate_csv_bytes b then
         match s.saveResult with
         | Except.error _ => []
         | Except.ok path =>
           match s.profileResult with
           | Except.error _ => []
           | Except.ok prof => [⟨s.name, path, digestModel b, prof.1, prof.2⟩]
       else []) ++ collectLoop rest

/-- Outcome of one collector run: the history rows appended and the
reported success count `ok=len(results)`. -/
def runCollector (ss : List SourceBehavior) : List RunResult × Nat :=
  let results := collectLoop ss
  (results, results.length)

/-- Declarative success predicate for one source: fetched, validated,
saved and profiled. -/
def sourceOk (s : SourceBehavior) : Bool :=
  match s.fetchResult with
  | Except.error _ => false
  | Except.ok b =>
    validate_csv_bytes b &&
    (match s.saveResult with
     | Except.error _ => false
     | Except.ok _ =>
       match s.profileResult with
       | Except.error _ => false
       | Except.ok _ => true)

/-- The history record a successful source contributes. -/
def mkRecord (s : SourceBehavior) : RunResult :=
  { name := s.name,
    path := (s.saveResult.toOption).getD "",
    sha := digestModel ((s.fetchResult.toOption).getD ""),
    rowCount := ((s.profileResult.toOption).getD (0, 0)).1,
    colCount := ((s.profileResult.toOption).getD (0, 0)).2 }

/-- Archive filenames are modelled as lists of code points, on which the
Python string comparison used by `files.sort(reverse=True)` is plain
lexicographic order. -/
abbrev FileName := List Nat

/-- Code points of a string literal. -/
def codes (s : String) : List Nat := s.toList.map Char.toNat

/-- Strict lexicographic order on code-point lists: Python `<` on str. -/
def lexLt : List Nat → List Nat → Bool
  | [], [] => false
  | [], _ :: _ => true
  | _ :: _, [] => false
  | a :: as, b :: bs => if a < b then true else if a = b then lexLt as bs else false

/-- Boolean string-prefix test on code-point lists: Python `startswith`. -/
def isPrefixB : List Nat → List Nat → Bool
  | [], _ => true
  | _ :: _, [] => false
  | a :: as, b :: bs => a == b && isPrefixB as bs

/-- Boolean string-suffix test: Python `endswith`. -/
def isSuffixB (s l : List Nat) : Bool := isPrefixB s.reverse l.reverse

/-- Insertion of an element into a descending-sorted list. -/
def insertDesc (x : FileName) : List FileName → List FileName
  | [] => [x]
  | y :: ys => if lexLt y x then x :: y :: ys else y :: insertDesc x ys

/-- Descending sort: `files.sort(reverse=True)`. -/
def sortDesc : List FileName → List FileName
  | [] => []
  | x :: xs => insertDesc x (sortDesc xs)

/-- A civil timestamp as produced by `timestamp_paris` before rendering. -/
structure Timestamp where
  year : Nat
  month : Nat
  day : Nat
  hour : Nat
  minute : Nat
  second : Nat
deriving DecidableEq, Repr

/-- Width bounds under which the fixed-width rendering is faithful; every
civil time satisfies them. -/
def validTs (t : Timestamp) : Bool :=
  t.year < 10000 && t.month < 100 && t.day < 100 &&
  t.hour < 100 && t.minute < 100 && t.second < 100

/-- Chronological key of a timestamp: fields in lexicographic weight. -/
def tsKey (t : Timestamp) : Nat :=
  ((((t.year * 100 + t.month) * 100 + t.day) * 100 + t.hour) * 100 +
    t.minute) * 100 + t.second

/-- Zero-padded fixed-width decimal rendering, most significant first,
as code points. -/
def padDigits : Nat → Nat → List Nat
  | 0, _ => []
  | k + 1, n => (48 + n / 10 ^ k) :: padDigits k (n % 10 ^ k)

/-- The `strftime("%Y%m%d_%H%M%S")` rendering of `timestamp_paris`
(95 is the underscore). -/
def renderTs (t : Timestamp) : List Nat :=
  padDigits 4 t.year ++ (padDigits 2 t.month ++ (padDigits 2 t.day ++
    (95 :: (padDigits 2 t.hour ++ (padDigits 2 t.minute ++ padDigits 2 t.second)))))

/-- The filename written by `save_bytes_to_file`: `f"{name}_{ts}.csv"`. -/
def save_bytes_to_file (name : List Nat) (t : Timestamp) : FileName :=
  name ++ (95 :: (renderTs t ++ codes ".csv"))

/-- The filter of `get_latest_csv`:
`f.startswith("owid_covid_data") and f.endswith(".csv")`. -/
def matchesOwid (f : FileName) : Bool :=
  isPrefixB (codes "owid_covid_data") f && isSuffixB (codes ".csv") f

/-- The `get_latest_csv` operation: filter the directory listing by the
naming convention, sort descending, take the first; raise
`FileNotFoundError` when nothing matches. -/
def get_latest_csv (files : List FileName) : Except String FileName :=
  match sortDesc (files.filter matchesOwid) with
  | [] => Except.error "No OWID file found in data/raw/"
  | f :: _ => Except.ok f

/-- SQL `=` between two cells: true only when both are non-NULL and equal
(a NULL comparand is never equal, as in the join and WHERE conditions). -/
def cellEqNonNull (a b : Cell) : Bool :=
  match a, b with
  | some x, some y => x == y
  | _, _ => false

/-- Ordering used by `ORDER BY s.date DESC` on text dates: `a` precedes
`b` when its date sorts later; sqlite places NULL last under DESC. -/
def dateDescBefore (a b : Cell) : Bool :=
  match a, b with
  | some x, some y => lexLt (codes y) (codes x)
  | some _, none => true
  | none, _ => false

/-- Insertion into a list sorted by the strict precedence `before`. -/
def insertOrd {α : Type} (before : α → α → Bool) (x : α) : List α → List α
  | [] => [x]
  | y :: ys => if before x y then x :: y :: ys else y :: insertOrd before x ys

/-- Insertion sort by the strict precedence `before`. -/
def sortOrd {α : Type} (before : α → α → Bool) : List α → List α
  | [] => []
  | x :: xs => insertOrd before x (sortOrd before xs)

/-- The verification query of `quick_test`:
`SELECT l.location, s.date, s.new_cases, s.new_deaths FROM covid_stats s
JOIN locations l ON l.iso_code = s.iso_code WHERE l.location = 'France'
ORDER BY s.date DESC LIMIT 5`. -/
def quick_test_join (db : Database) : List (List Cell) :=
  match db.covidStats, db.locations with
  | some s, some l =>
    let joined := s.rows.foldr (fun sr acc =>
      ((l.rows.filter (fun lr =>
          cellEqNonNull (getCell l.cols lr "iso_code")
            (getCell s.cols sr "iso_code"))).map (fun lr => (sr, lr))) ++ acc) []
    let filtered := joined.filter (fun p =>
      cellEqNonNull (getCell l.cols p.2 "location") (some "France"))
    let ordered := sortOrd (fun p q =>
      dateDescBefore (getCell s.cols p.1 "date") (getCell s.cols q.1 "date")) filtered
    (ordered.take 5).map (fun p =>
      [getCell l.cols p.2 "location", getCell s.cols p.1 "date",
       getCell s.cols p.1 "new_cases", getCell s.cols p.1 "new_deaths"])
  | _, _ => []

/-- Row count of the `locations` table (0 when the table is missing). -/
def locCount (db : Database) : Nat :=
  match db.locations with
  | some t => t.rows.length
  | none => 0

/-- Row count of the `covid_stats` table (0 when the table is missing). -/
def statCount (db : Database) : Nat :=
  match db.covidStats with
  | some t => t.rows.length
  | none => 0

/-- Columns of the test fixtures: all static columns plus a date and two
metric columns, as in a narrow slice of the OWID csv. -/
def fixCols : List String := locCols ++ ["date", "new_cases", "new_deaths"]

/-- One fixture row: identifier, continent, name, 15 absent indicators,
then date and the two metrics. -/
def fixRow (iso cont loc dt nc nd : Cell) : List Cell :=
  [iso, cont, loc] ++ List.replicate 15 none ++ [dt, nc, nd]

/-- Single-row fixture: one complete French observation. -/
def c1Fixture : DF :=
  { cols := fixCols,
    rows := [fixRow (some "FRA") (some "Europe") (some "France")
               (some "2021-01-01") (some "10") (some "1")] }

/-- Result of running the loader on the single-row fixture against a
freshly reset schema. -/
def c1Db : Database :=
  match load_data (create_schema dbEmpty) c1Fixture with
  | Except.ok db => db
  | Except.error _ => dbEmpty

/-- Referential completeness of a Transform result: every time-series row
carries an identifier present among the static rows' identifiers. -/
def refCompleteB (df : DF) : Bool :=
  let locIsos := (df_locations df).rows.map isoKey
  (df_stats df).rows.all (fun r =>
    match getCell (statColsOf df) r "iso_code" with
    | some v => locIsos.contains (some v)
    | none => false)

/-- Ten-row fixture: seven complete rows, two rows with a missing
identifier, one row with a present but unparseable date. -/
def c2Fixture : DF :=
  { cols := fixCols,
    rows :=
      [fixRow (some "FRA") (some "Europe") (some "France") (some "2021-01-01") (some "10") (some "1"),
       fixRow (some "FRA") (some "Europe") (some "France") (some "2021-01-02") (some "11") (some "2"),
       fixRow (some "FRA") (some "Europe") (some "France") (some "2021-01-03") (some "12") (some "0"),
       fixRow none (some "Europe") (some "France") (some "2021-01-04") (some "13") (some "1"),
       fixRow (some "FRA") (some "Europe") (some "France") (some "2021-01-05") (some "14") (some "2"),
       fixRow none (some "Europe") (some "France") (some "2021-01-06") (some "15") (some "0"),
       fixRow (some "DEU") (some "Europe") (some "Germany") (some "not-a-date") (some "16") (some "1"),
       fixRow (some "FRA") (some "Europe") (some "France") (some "2021-01-07") (some "17") (some "3"),
       fixRow (some "FRA") (some "Europe") (some "France") (some "2021-01-08") (some "18") (some "1"),
       fixRow (some "FRA") (some "Europe") (some "France") (some "2021-01-09") (some "19") (some "2")] }

/-- Eight-row fixture: two countries, four dated observations each, no
missing identifiers or dates. -/
def c3Fixture : DF :=
  { cols := fixCols,
    rows :=
      [fixRow (some "FRA") (some "Europe") (some "France") (some "2021-03-01") (some "10") (some "1"),
       fixRow (some "FRA") (some "Europe") (some "France") (some "2021-03-02") (some "11") (some "2"),
       fixRow (some "FRA") (some "Europe") (some "France") (some "2021-03-03") (some "12") (some "0"),
       fixRow (some "FRA") (some "Europe") (some "France") (some "2021-03-04") (some "13") (some "1"),
       fixRow (some "DEU") (some "Europe") (some "Germany") (some "2021-03-01") (some "20") (some "2"),
       fixRow (some "DEU") (some "Europe") (some "Germany") (some "2021-03-02") (some "21") (some "3"),
       fixRow (some "DEU") (some "Europe") (some "Germany") (some "2021-03-03") (some "22") (some "4"),
       fixRow (some "DEU") (some "Europe") (some "Germany") (some "2021-03-04") (some "23") (some "5")] }

/-- Result of `create_schema` + `load_data` on the two-country fixture. -/
def c3Db : Database :=
  match load_data (create_schema dbEmpty) c3Fixture with
  | Except.ok db => db
  | Except.error _ => dbEmpty

/-- Rows the `covid_stats` table held before a load (none if missing). -/
def oldStatsRows (db : Database) : List (List Cell) :=
  match db.covidStats with
  | some t => t.rows
  | none => []

/-- A concrete earlier persist timestamp. -/
def c7t1 : Timestamp := ⟨2024, 1, 2, 3, 4, 5⟩

/-- A concrete later persist timestamp. -/
def c7t2 : Timestamp := ⟨2024, 1, 2, 3, 4, 6⟩

/-- The logical source name of the collector's configured source. -/
def owidName : List Nat := codes "owid_covid_data_github"

/-- A concrete archive filename following the collector's convention. -/
def w10File : FileName := codes "owid_covid_data_github_20240102_030405.csv"

theorem colIdx_eq_none_iff (cols : List String) (c : String) :
    colIdx cols c = none ↔ ¬ c ∈ cols := by
  induction cols with
  | nil => simp [colIdx]
  | cons d ds ih =>
    by_cases h : d = c
    · subst h; simp [colIdx]
    · simp only [colIdx, if_neg h, Option.map_eq_none', ih, List.mem_cons]
      constructor
      · intro hn hc
        rcases hc with hc | hc
        · exact h hc.symm
        · exact hn hc
      · intro hn
        exact fun hc => hn (Or.inr hc)

theorem colIdx_get (cols : List String) (c : String) :
    ∀ i, colIdx cols c = some i → cols.get? i = some c := by
  induction cols with
  | nil => intro i h; simp [colIdx] at h
  | cons d ds ih =>
    intro i h
    by_cases hd : d = c
    · rw [colIdx, if_pos hd] at h
      cases h
      simp [hd]
    · rw [colIdx, if_neg hd] at h
      cases hj : colIdx ds c with
      | none => rw [hj] at h; simp at h
      | some j =>
        rw [hj] at h
        simp only [Option.map_some', Option.some.injEq] at h
        subst h
        simpa using ih j hj

theorem getCell_eq_none_of_not_mem (cols : List String) (r : List Cell) (c : String)
    (h : ¬ c ∈ cols) : getCell cols r c = none := by
  unfold getCell
  rw [(colIdx_eq_none_iff cols c).mpr h]

theorem getCell_alignRow (dCols tCols : List String) (r : List Cell) (c : String) :
    getCell tCols (alignRow dCols tCols r) c =
      match colIdx tCols c with
      | some _ => getCell dCols r c
      | none => none := by
  cases h : colIdx tCols c with
  | none => simp only [getCell, h]
  | some i =>
    simp only [getCell, alignRow, cellAt, h, List.get?_map, colIdx_get tCols c i h]
    rfl

theorem cellAt_eq_none_of_le (r : List Cell) (i : Nat) (h : r.length ≤ i) :
    cellAt r i = none := by
  unfold cellAt
  rw [List.get?_eq_none.mpr h]

theorem cellAt_set_self (r : List Cell) (i : Nat) (v : Cell) :
    cellAt (r.set i v) i = if i < r.length then v else none := by
  by_cases h : i < r.length
  · rw [if_pos h]
    unfold cellAt
    rw [List.get?_set_eq_of_lt v h]
  · rw [if_neg h]
    rw [List.set_eq_of_length_le (by omega)]
    exact cellAt_eq_none_of_le r i (by omega)

theorem getCell_updateCol (cols : List String) (r : List Cell) (c : String)
    (f : Cell → Cell) (hf : f none = none) :
    getCell cols (updateCol cols r c f) c = f (getCell cols r c) := by
  cases h : colIdx cols c with
  | none =>
    simp only [getCell, updateCol, h]
    exact hf.symm
  | some i =>
    simp only [getCell, updateCol, h]
    rw [cellAt_set_self]
    by_cases hi : i < r.length
    · rw [if_pos hi]
    · rw [if_neg hi, cellAt_eq_none_of_le r i (by omega), hf]

theorem extra_sub_loc (c : String) (h : extraCols.contains c = true) :
    locCols.contains c = true := by
  have hm : c = "continent" ∨ c = "location" ∨ c = "population" := by
    simpa [extraCols] using h
  rcases hm with h1 | h1 | h1 <;> (subst h1; rfl)

theorem statColsOf_eq (df : DF) :
    statColsOf df = df.cols.filter (fun c => !(locCols.contains c)) := by
  unfold statColsOf
  apply List.filter_congr
  intro c _
  cases h : locCols.contains c with
  | true => rfl
  | false =>
    have he : extraCols.contains c = false := by
      cases hex : extraCols.contains c with
      | false => rfl
      | true => rw [extra_sub_loc c hex] at h; cases h
    rw [he]
    rfl

theorem iso_not_mem_statColsOf (df : DF) : ¬ "iso_code" ∈ statColsOf df := by
  intro h
  unfold statColsOf at h
  have h2 := (List.mem_filter.mp h).2
  have : locCols.contains "iso_code" = true := rfl
  rw [this] at h2
  simp at h2

theorem getCell_iso_stats (df : DF) (r : List Cell) :
    getCell (statColsOf df) r "iso_code" = none :=
  getCell_eq_none_of_not_mem _ r _ (iso_not_mem_statColsOf df)

theorem dropDupByAux_idem {α β : Type} [BEq β] (key : α → β) :
    ∀ (l : List α) (seen : List β),
      dropDupByAux key seen (dropDupByAux key seen l) = dropDupByAux key seen l := by
  intro l
  induction l with
  | nil => intro seen; rfl
  | cons x xs ih =>
    intro seen
    cases hx : seen.contains (key x) with
    | true => simp [dropDupByAux, hx, ih]
    | false => simp [dropDupByAux, hx, ih]

theorem dropDupByAux_mem_props {α β : Type} [BEq β] [LawfulBEq β] (key : α → β) :
    ∀ (l : List α) (seen : List β) (r : α), r ∈ dropDupByAux key seen l →
      seen.contains (key r) = false ∧
        l.find? (fun y => key y == key r) = some r := by
  intro l
  induction l with
  | nil => intro seen r h; simp [dropDupByAux] at h
  | cons x xs ih =>
    intro seen r h
    cases hx : seen.contains (key x) with
    | true =>
      rw [dropDupByAux, if_pos (by rw [hx])] at h
      obtain ⟨h1, h2⟩ := ih seen r h
      have hxr : (key x == key r) = false := by
        cases hxy : key x == key r with
        | false => rfl
        | true =>
          rw [eq_of_beq hxy] at hx
          rw [hx] at h1
          cases h1
      refine ⟨h1, ?_⟩
      rw [List.find?_cons, hxr, h2]
    | false =>
      rw [dropDupByAux, if_neg (by rw [hx]; exact Bool.false_ne_true)] at h
      rcases List.mem_cons.mp h with h | h
      · subst h
        refine ⟨hx, ?_⟩
        rw [List.find?_cons]
        simp
      · obtain ⟨h1, h2⟩ := ih (key x :: seen) r h
        rw [List.contains_cons] at h1
        have hxr : (key x == key r) = false := by
          cases hxy : key x == key r with
          | false => rfl
          | true =>
            exfalso
            have he : key r = key x := (eq_of_beq hxy).symm
            rw [he] at h1
            simp at h1
        have hseen : seen.contains (key r) = false := by
          cases hse : seen.contains (key r) with
          | false => rfl
          | true => rw [hse] at h1; simp at h1
        refine ⟨hseen, ?_⟩
        rw [List.find?_cons, hxr, h2]

theorem dropDupByAux_keys_nodup {α β : Type} [BEq β] [LawfulBEq β] (key : α → β) :
    ∀ (l : List α) (seen : List β), ((dropDupByAux key seen l).map key).Nodup := by
  intro l
  induction l with
  | nil => intro seen; simp [dropDupByAux]
  | cons x xs ih =>
    intro seen
    cases hx : seen.contains (key x) with
    | true =>
      rw [dropDupByAux, if_pos (by rw [hx])]
      exact ih seen
    | false =>
      rw [dropDupByAux, if_neg (by rw [hx]; exact Bool.false_ne_true)]
      rw [List.map_cons, List.nodup_cons]
      refine ⟨?_, ih (key x :: seen)⟩
      intro hmem
      obtain ⟨r, hr, hkr⟩ := List.mem_map.mp hmem
      have h1 := (dropDupByAux_mem_props key xs (key x :: seen) r hr).1
      rw [List.contains_cons, hkr] at h1
      simp at h1

theorem dropDupByAux_keys_mem {α β : Type} [BEq β] [LawfulBEq β] (key : α → β) :
    ∀ (l : List α) (seen : List β) (k : β), k ∈ l.map key →
      seen.contains k = false → k ∈ (dropDupByAux key seen l).map key := by
  intro l
  induction l with
  | nil => intro seen k hk _; simp at hk
  | cons x xs ih =>
    intro seen k hk hs
    rw [List.map_cons, List.mem_cons] at hk
    cases hx : seen.contains (key x) with
    | true =>
      rw [dropDupByAux, if_pos (by rw [hx])]
      rcases hk with hk | hk
      · subst hk; rw [hx] at hs; cases hs
      · exact ih seen k hk hs
    | false =>
      rw [dropDupByAux, if_neg (by rw [hx]; exact Bool.false_ne_true)]
      rw [List.map_cons, List.mem_cons]
      rcases hk with hk | hk
      · exact Or.inl hk
      · cases hkx : key x == k with
        | true => exact Or.inl (eq_of_beq hkx).symm
        | false =>
          refine Or.inr (ih (key x :: seen) k hk ?_)
          have hk2 : (k == key x) = false := by
            cases hkk : k == key x with
            | false => rfl
            | true => rw [eq_of_beq hkk] at hkx; simp at hkx
          rw [List.contains_cons, hk2, hs]
          rfl

theorem lexLt_irrefl : ∀ l : List Nat, lexLt l l = false := by
  intro l
  induction l with
  | nil => rfl
  | cons x xs ih => simp [lexLt, ih]

theorem lexLt_asymm : ∀ a b : List Nat, lexLt a b = true → lexLt b a = false := by
  intro a
  induction a with
  | nil =>
    intro b _
    cases b with
    | nil => rfl
    | cons y ys => rfl
  | cons x xs ih =>
    intro b h
    cases b with
    | nil => simp [lexLt] at h
    | cons y ys =>
      simp only [lexLt] at h ⊢
      by_cases hxy : x < y
      · have h1 : ¬ y < x := by omega
        have h2 : ¬ y = x := by omega
        simp [h1, h2]
      · by_cases hxe : x = y
        · subst hxe
          rw [if_neg (Nat.lt_irrefl x), if_pos rfl] at h ⊢
          exact ih ys h
        · simp [hxy, hxe] at h

theorem lexLt_cons_same (x : Nat) (a b : List Nat) :
    lexLt (x :: a) (x :: b) = lexLt a b := by
  simp [lexLt]

theorem lexLt_append_same : ∀ (p a b : List Nat), lexLt (p ++ a) (p ++ b) = lexLt a b := by
  intro p
  induction p with
  | nil => intro a b; rfl
  | cons x xs ih => intro a b; simp [List.cons_append, lexLt_cons_same, ih]

theorem lexLt_append_of_lt : ∀ (a b u v : List Nat), a.length = b.length →
    lexLt a b = true → lexLt (a ++ u) (b ++ v) = true := by
  intro a
  induction a with
  | nil =>
    intro b u v hl h
    cases b with
    | nil => simp [lexLt] at h
    | cons y ys => simp at hl
  | cons x xs ih =>
    intro b u v hl h
    cases b with
    | nil => simp at hl
    | cons y ys =>
      simp only [lexLt] at h
      simp only [List.cons_append, lexLt]
      by_cases hxy : x < y
      · simp [hxy]
      · by_cases hxe : x = y
        · subst hxe
          rw [if_neg (Nat.lt_irrefl x), if_pos rfl] at h ⊢
          exact ih ys u v (by simpa using hl) h
        · simp [hxy, hxe] at h

theorem padDigits_length : ∀ (k n : Nat), (padDigits k n).length = k := by
  intro k
  induction k with
  | zero => intro n; rfl
  | succ k ih => intro n; simp [padDigits, ih]

theorem padDigits_mono : ∀ (k n m : Nat), n < 10 ^ k → m < 10 ^ k → n < m →
    lexLt (padDigits k n) (padDigits k m) = true := by
  intro k
  induction k with
  | zero => intro n m hn hm hnm; simp [pow_zero] at hn hm; omega
  | succ k ih =>
    intro n m hn hm hnm
    simp only [padDigits, lexLt]
    by_cases hd : n / 10 ^ k < m / 10 ^ k
    · have h48 : 48 + n / 10 ^ k < 48 + m / 10 ^ k := by omega
      simp [h48]
    · have hle : n / 10 ^ k ≤ m / 10 ^ k := Nat.div_le_div_right (Nat.le_of_lt hnm)
      have hde : n / 10 ^ k = m / 10 ^ k := by omega
      have h48 : ¬ (48 + n / 10 ^ k < 48 + m / 10 ^ k) := by omega
      have heq : 48 + n / 10 ^ k = 48 + m / 10 ^ k := by omega
      have hpos : 0 < 10 ^ k := Nat.pos_pow_of_pos k (by omega)
      simp only [h48, if_false, if_pos heq]
      apply ih
      · exact Nat.mod_lt _ hpos
      · exact Nat.mod_lt _ hpos
      · have hn2 := Nat.div_add_mod n (10 ^ k)
        have hm2 := Nat.div_add_mod m (10 ^ k)
        rw [hde] at hn2
        omega

theorem isPrefixB_self_append : ∀ (p u : List Nat), isPrefixB p (p ++ u) = true := by
  intro p
  induction p with
  | nil => intro u; rfl
  | cons x xs ih => intro u; simp [isPrefixB, ih]

theorem isPrefixB_extend : ∀ (p a u : List Nat), isPrefixB p a = true →
    isPrefixB p (a ++ u) = true := by
  intro p
  induction p with
  | nil => intro a u _; rfl
  | cons x xs ih =>
    intro a u h
    cases a with
    | nil => simp [isPrefixB] at h
    | cons y ys =>
      simp only [isPrefixB, List.cons_append, Bool.and_eq_true] at h ⊢
      exact ⟨h.1, ih ys u h.2⟩

theorem matchesOwid_save (name : List Nat) (t : Timestamp)
    (h : isPrefixB (codes "owid_covid_data") name = true) :
    matchesOwid (save_bytes_to_file name t) = true := by
  unfold matchesOwid save_bytes_to_file
  rw [Bool.and_eq_true]
  constructor
  · exact isPrefixB_extend _ _ _ h
  · unfold isSuffixB
    have hshape : name ++ (95 :: (renderTs t ++ codes ".csv")) =
        (name ++ 95 :: renderTs t) ++ codes ".csv" := by simp
    rw [hshape, List.reverse_append]
    exact isPrefixB_self_append _ _

theorem save_lexLt (name : List Nat) (t1 t2 : Timestamp)
    (h1 : validTs t1 = true) (h2 : validTs t2 = true) (hk : tsKey t1 < tsKey t2) :
    lexLt (save_bytes_to_file name t1) (save_bytes_to_file name t2) = true := by
  unfold save_bytes_to_file
  rw [lexLt_append_same, lexLt_cons_same]
  simp only [validTs, Bool.and_eq_true, decide_eq_true_eq] at h1 h2
  obtain ⟨⟨⟨⟨⟨hy1, hmo1⟩, hd1⟩, hh1⟩, hmi1⟩, hs1⟩ := h1
  obtain ⟨⟨⟨⟨⟨hy2, hmo2⟩, hd2⟩, hh2⟩, hmi2⟩, hs2⟩ := h2
  unfold tsKey at hk
  have hten4 : (10 : Nat) ^ 4 = 10000 := by norm_num
  have hten2 : (10 : Nat) ^ 2 = 100 := by norm_num
  have hsplit : t1.year < t2.year ∨ (t1.year = t2.year ∧
      (t1.month < t2.month ∨ (t1.month = t2.month ∧
      (t1.day < t2.day ∨ (t1.day = t2.day ∧
      (t1.hour < t2.hour ∨ (t1.hour = t2.hour ∧
      (t1.minute < t2.minute ∨ (t1.minute = t2.minute ∧
      t1.second < t2.second))))))))) := by omega
  unfold renderTs
  simp only [List.append_assoc, List.cons_append]
  rcases hsplit with hy | ⟨hy, hsplit⟩
  · exact lexLt_append_of_lt _ _ _ _ (by simp [padDigits_length])
      (padDigits_mono 4 _ _ (by omega) (by omega) hy)
  · rw [hy, lexLt_append_same]
    rcases hsplit with hmo | ⟨hmo, hsplit⟩
    · exact lexLt_append_of_lt _ _ _ _ (by simp [padDigits_length])
        (padDigits_mono 2 _ _ (by omega) (by omega) hmo)
    · rw [hmo, lexLt_append_same]
      rcases hsplit with hd | ⟨hd, hsplit⟩
      · exact lexLt_append_of_lt _ _ _ _ (by simp [padDigits_length])
          (padDigits_mono 2 _ _ (by omega) (by omega) hd)
      · rw [hd, lexLt_append_same, lexLt_cons_same]
        rcases hsplit with hh | ⟨hh, hsplit⟩
        · exact lexLt_append_of_lt _ _ _ _ (by simp [padDigits_length])
            (padDigits_mono 2 _ _ (by omega) (by omega) hh)
        · rw [hh, lexLt_append_same]
          rcases hsplit with hmi | ⟨hmi, hs⟩
          · exact lexLt_append_of_lt _ _ _ _ (by simp [padDigits_length])
              (padDigits_mono 2 _ _ (by omega) (by omega) hmi)
          · rw [hmi, lexLt_append_same]
            exact lexLt_append_of_lt _ _ _ _ (by simp [padDigits_length])
              (padDigits_mono 2 _ _ (by omega) (by omega) hs)

theorem insertDesc_ne_nil (x : FileName) (l : List FileName) :
    insertDesc x l ≠ [] := by
  cases l with
  | nil => simp [insertDesc]
  | cons y ys =>
    unfold insertDesc
    by_cases h : lexLt y x = true
    · simp [h]
    · simp [h]

theorem sortDesc_eq_nil (l : List FileName) (h : sortDesc l = []) : l = [] := by
  cases l with
  | nil => rfl
  | cons x xs =>
    exfalso
    rw [sortDesc] at h
    exact insertDesc_ne_nil x (sortDesc xs) h

theorem collectLoop_eq : ∀ ss : List SourceBehavior,
    collectLoop ss = (ss.filter sourceOk).map mkRecord := by
  intro ss
  induction ss with
  | nil => rfl
  | cons s rest ih =>
    rw [collectLoop]
    cases hf : s.fetchResult with
    | error e =>
      have hok : sourceOk s = false := by simp [sourceOk, hf]
      simp [List.filter_cons, hok, ih]
    | ok b =>
      cases hv : validate_csv_bytes b with
      | false =>
        have hok : sourceOk s = false := by simp [sourceOk, hf, hv]
        simp [List.filter_cons, hok, hv, ih]
      | true =>
        cases hsv : s.saveResult with
        | error e =>
          have hok : sourceOk s = false := by simp [sourceOk, hf, hv, hsv]
          simp [List.filter_cons, hok, hv, hsv, ih]
        | ok path =>
          cases hpr : s.profileResult with
          | error e =>
            have hok : sourceOk s = false := by simp [sourceOk, hf, hv, hsv, hpr]
            simp [List.filter_cons, hok, hv, hsv, hpr, ih]
          | ok prof =>
            have hok : sourceOk s = true := by simp [sourceOk, hf, hv, hsv, hpr]
            simp [List.filter_cons, hok, hv, hsv, hpr, ih, mkRecord, hf,
              Except.toOption]

/-- Claim C5: `validate_csv_bytes` returns true exactly on payloads at
least 1000 bytes long whose ten-row prefix sample parses as tabular
data, and false on payloads under the size floor or unparseable. -/
theorem c5_validate_iff (b : String) :
    validate_csv_bytes b = true ↔ (1000 ≤ b.length ∧ parseOkSample b = true) := by
  unfold validate_csv_bytes
  by_cases h : b.length < 1000
  · rw [if_pos h]
    constructor
    · intro hx; cases hx
    · intro hx; omega
  · rw [if_neg h]
    constructor
    · intro hp; exact ⟨by omega, hp⟩
    · intro hx; exact hx.2

/-- Claim C6: per-source collector errors never escape the loop; the run
always completes with exactly one history record per source that was
fetched, validated, saved and profiled (failing sources contribute
nothing), and the reported success count is the number of such sources. -/
theorem c6_collector_resilience (ss : List SourceBehavior) :
    (runCollector ss).1 = (ss.filter sourceOk).map mkRecord ∧
    (runCollector ss).2 = (ss.filter sourceOk).length := by
  constructor
  · simpa [runCollector] using collectLoop_eq ss
  · simp [runCollector, collectLoop_eq ss]

/-- Claim C8: `create_schema` idempotently resets the store: after it,
both tables exist with the fixed target columns and zero rows, whatever
the prior state, and running it twice equals running it once. -/
theorem c8_schema_reset_idempotent (db : Database) :
    create_schema (create_schema db) = create_schema db ∧
    (create_schema db).locations = some { cols := locCols, rows := [] } ∧
    (create_schema db).covidStats = some { cols := covidStatsCols, rows := [] } :=
  ⟨rfl, rfl, rfl⟩

/-- Claim C9: the static-partition de-duplication keeps the first
occurrence in source order per identifier and is idempotent: re-running
it changes nothing, and every input identifier occurs exactly once in
the result (it occurs, and the result's key list has no duplicates). -/
theorem c9_dedup_first_idempotent (l : List (List Cell)) :
    dropDupBy isoKey (dropDupBy isoKey l) = dropDupBy isoKey l ∧
    ((dropDupBy isoKey l).map isoKey).Nodup ∧
    (∀ k, k ∈ l.map isoKey → k ∈ (dropDupBy isoKey l).map isoKey) ∧
    (∀ r, r ∈ dropDupBy isoKey l →
      l.find? (fun y => isoKey y == isoKey r) = some r) := by
  refine ⟨dropDupByAux_idem isoKey l [], dropDupByAux_keys_nodup isoKey l [], ?_, ?_⟩
  · intro k hk
    exact dropDupByAux_keys_mem isoKey l [] k hk rfl
  · intro r hr
    exact (dropDupByAux_mem_props isoKey l [] r hr).2

/-- Claim C10: `get_latest_csv` fails with the not-found error exactly
when no file in the listing matches the expected naming pattern (the
`owid_covid_data` name stem with a `.csv` extension); when at least one
matches it returns a path without raising. -/
theorem c10_locate_latest_notfound (files : List FileName) :
    (files.filter matchesOwid = [] ↔ ∀ f ∈ files, ¬ matchesOwid f = true) ∧
    (files.filter matchesOwid = [] →
      get_latest_csv files = Except.error "No OWID file found in data/raw/") ∧
    (files.filter matchesOwid ≠ [] → ∃ g, get_latest_csv files = Except.ok g) := by
  refine ⟨List.filter_eq_nil_iff, ?_, ?_⟩
  · intro h
    unfold get_latest_csv
    rw [h]
    rfl
  · intro h
    unfold get_latest_csv
    cases hs : sortDesc (files.filter matchesOwid) with
    | nil => exact absurd (sortDesc_eq_nil _ hs) h
    | cons f fs => exact ⟨f, rfl⟩

/-- Witness for C10 at concrete inputs: the empty listing raises the
not-found error, and a singleton conforming listing returns a path. -/
theorem c10_witness :
    get_latest_csv [] = Except.error "No OWID file found in data/raw/" ∧
    ([w10File].filter matchesOwid ≠ [] ∧
      ∃ g, get_latest_csv [w10File] = Except.ok g) :=
  ⟨(c10_locate_latest_notfound []).2.1 rfl,
   by decide, (c10_locate_latest_notfound [w10File]).2.2 (by decide)⟩

/-- Claim C1 (code bug): on the single complete-row fixture the Transform
output violates referential completeness: the time-series partition's
rows carry no identifier at all (`iso_code` is NULL), which is not among
the static partition's identifiers, and the same holds of the rows the
load appends to `covid_stats`. -/
theorem c1_null_identifier :
    refCompleteB c1Fixture = false ∧
    (df_stats c1Fixture).rows.length = 1 ∧
    (df_locations c1Fixture).rows.map isoKey = [some "FRA"] ∧
    (match c1Db.covidStats with
     | some t => t.rows.all (fun r => (getCell t.cols r "iso_code").isNone) &&
         (t.rows.length == 1)
     | none => false) = true :=
  ⟨rfl, rfl, rfl, rfl⟩

/-- Claim C2 counterexample: a ten-row table in which two rows lack the
identifier and one row has a present but unparseable date yields eight
time-series rows, not seven — the unparseable-date row is retained with
a NULL date because `dropna` runs before the coercing date conversion. -/
theorem c2_seven_rows_false :
    c2Fixture.rows.length = 10 ∧
    (c2Fixture.rows.filter (fun r =>
      !(getCell c2Fixture.cols r "iso_code").isSome)).length = 2 ∧
    (c2Fixture.rows.filter (fun r =>
      (getCell c2Fixture.cols r "iso_code").isSome &&
      (match getCell c2Fixture.cols r "date" with
       | some s => (parseDate s).isNone
       | none => false))).length = 1 ∧
    (df_stats c2Fixture).rows.length = 8 ∧
    ¬ (df_stats c2Fixture).rows.length = 7 :=
  ⟨rfl, rfl, rfl, rfl, by decide⟩

/-- Claim C2 (amended): Transform excludes exactly the rows missing the
identifier or missing the date value; rows whose date is present but
unparseable are retained (with a NULL date), and every non-NULL date in
the output is in the image of the date normalizer, hence in canonical
YYYY-MM-DD form. -/
theorem c2_transform_row_retention (df : DF) :
    (df_stats df).rows.length =
      (df.rows.filter (fun r =>
        (getCell df.cols r "iso_code").isSome &&
        (getCell df.cols r "date").isSome)).length ∧
    ∀ r, r ∈ (df_stats df).rows → ∀ v, getCell (statColsOf df) r "date" = some v →
      ∃ p, parseDate p = some v := by
  constructor
  · simp [df_stats, project, setDateNorm, dropnaIsoDate]
  · intro r hr v hv
    simp only [df_stats, project, setDateNorm, dropnaIsoDate] at hr
    obtain ⟨r2, hr2, rfl⟩ := List.mem_map.mp hr
    rw [getCell_alignRow] at hv
    cases ht : colIdx (statColsOf df) "date" with
    | none => rw [ht] at hv; cases hv
    | some i =>
      rw [ht] at hv
      obtain ⟨r1, hr1, rfl⟩ := List.mem_map.mp hr2
      rw [getCell_updateCol _ _ _ _ rfl] at hv
      cases hx : getCell df.cols r1 "date" with
      | none => rw [hx] at hv; cases hv
      | some p => rw [hx] at hv; exact ⟨p, hv⟩

/-- Claim C3 (code bug): on the two-country, four-date fixture the full
`create_schema` + `load_data` pipeline does store 2 location rows and 8
time-series rows, but the filtered, date-ordered verification join of
`quick_test` returns 0 rows, not 4: every stored `covid_stats` row has a
NULL `iso_code`, so the join matches nothing. -/
theorem c3_end_to_end_join_empty :
    load_data (create_schema dbEmpty) c3Fixture = Except.ok c3Db ∧
    locCount c3Db = 2 ∧ statCount c3Db = 8 ∧
    quick_test_join c3Db = [] ∧
    ¬ (quick_test_join c3Db).length = 4 :=
  ⟨rfl, rfl, rfl, rfl, by decide⟩

/-- Claim C4: the time-series partition consists of exactly the columns
of the input not in the fixed static list; since `iso_code` is in the
static list, the partition has no identifier column, and every row a
successful load appends to `covid_stats` has a NULL identifier. -/
theorem c4_stats_partition_null_iso (db : Database) (df : DF) (db2 : Database)
    (h : load_data db df = Except.ok db2) :
    statColsOf df = df.cols.filter (fun c => !(locCols.contains c)) ∧
    ∃ t, db2.covidStats = some t ∧
      ∃ newRows, t.rows = oldStatsRows db ++ newRows ∧
        ∀ r, r ∈ newRows → getCell t.cols r "iso_code" = none := by
  refine ⟨statColsOf_eq df, ?_⟩
  unfold load_data at h
  by_cases h1 : (df.cols.contains "iso_code" && df.cols.contains "date") = true
  · rw [if_pos h1] at h
    by_cases h2 : (locCols.all fun c => df.cols.contains c) = true
    · rw [if_pos h2] at h
      cases hl : toSqlAppend (some "iso_code") db.locations (df_locations df) with
      | error e => rw [hl] at h; cases h
      | ok lt =>
        rw [hl] at h
        cases hs : toSqlAppend none db.covidStats (df_stats df) with
        | error e => rw [hs] at h; cases h
        | ok st =>
          rw [hs] at h
          injection h with h
          subst h
          refine ⟨st, rfl, ?_⟩
          cases hc : db.covidStats with
          | none =>
            rw [hc] at hs
            simp only [toSqlAppend] at hs
            injection hs with hs
            subst hs
            refine ⟨(df_stats df).rows, by simp [oldStatsRows, hc], ?_⟩
            intro r _
            exact getCell_iso_stats df r
          | some t0 =>
            rw [hc] at hs
            simp only [toSqlAppend] at hs
            by_cases hsub : ((df_stats df).cols.all fun c => t0.cols.contains c) = true
            · rw [if_pos hsub] at hs
              injection hs with hs
              subst hs
              refine ⟨(df_stats df).rows.map
                (fun r => alignRow (df_stats df).cols t0.cols r),
                by simp [oldStatsRows, hc], ?_⟩
              intro r hr
              obtain ⟨r0, _, rfl⟩ := List.mem_map.mp hr
              rw [getCell_alignRow]
              cases ht : colIdx t0.cols "iso_code" with
              | none => rfl
              | some i => exact getCell_iso_stats df r0
            · rw [if_neg hsub] at hs; cases hs
    · rw [if_neg h2] at h; cases h
  · rw [if_neg h1] at h; cases h

/-- Witness for C4 at a concrete load: the single-row fixture loaded into
a freshly reset store. -/
theorem c4_witness :
    statColsOf c1Fixture = c1Fixture.cols.filter (fun c => !(locCols.contains c)) ∧
    ∃ t, c1Db.covidStats = some t ∧
      ∃ newRows, t.rows = oldStatsRows (create_schema dbEmpty) ++ newRows ∧
        ∀ r, r ∈ newRows → getCell t.cols r "iso_code" = none :=
  c4_stats_partition_null_iso (create_schema dbEmpty) c1Fixture c1Db rfl

/-- Claim C7: persisting two artifacts of the same logical name at a
strictly later timestamp and then locating the latest always selects the
later artifact, whichever order the directory lists them in. -/
theorem c7_latest_selects_later (name : List Nat) (t1 t2 : Timestamp)
    (hp : isPrefixB (codes "owid_covid_data") name = true)
    (h1 : validTs t1 = true) (h2 : validTs t2 = true)
    (hk : tsKey t1 < tsKey t2) :
    get_latest_csv [save_bytes_to_file name t1, save_bytes_to_file name t2] =
      Except.ok (save_bytes_to_file name t2) ∧
    get_latest_csv [save_bytes_to_file name t2, save_bytes_to_file name t1] =
      Except.ok (save_bytes_to_file name t2) := by
  have hm1 := matchesOwid_save name t1 hp
  have hm2 := matchesOwid_save name t2 hp
  have hlt := save_lexLt name t1 t2 h1 h2 hk
  have hnlt := lexLt_asymm _ _ hlt
  constructor
  · unfold get_latest_csv
    rw [List.filter_cons_of_pos (by rw [hm1]),
        List.filter_cons_of_pos (by rw [hm2]), List.filter_nil]
    show (match sortDesc [save_bytes_to_file name t1, save_bytes_to_file name t2] with
      | [] => Except.error "No OWID file found in data/raw/"
      | f :: _ => Except.ok f) = _
    rw [sortDesc, sortDesc, sortDesc, insertDesc, insertDesc]
    rw [if_neg (by rw [hnlt]; exact Bool.false_ne_true)]
  · unfold get_latest_csv
    rw [List.filter_cons_of_pos (by rw [hm2]),
        List.filter_cons_of_pos (by rw [hm1]), List.filter_nil]
    show (match sortDesc [save_bytes_to_file name t2, save_bytes_to_file name t1] with
      | [] => Except.error "No OWID file found in data/raw/"
      | f :: _ => Except.ok f) = _
    rw [sortDesc, sortDesc, sortDesc, insertDesc, insertDesc]
    rw [if_pos (by rw [hlt])]

/-- Witness for C7 at concrete timestamps one second apart. -/
theorem c7_witness :
    (isPrefixB (codes "owid_covid_data") owidName = true ∧
      validTs c7t1 = true ∧ validTs c7t2 = true ∧ tsKey c7t1 < tsKey c7t2) ∧
    (get_latest_csv [save_bytes_to_file owidName c7t1,
        save_bytes_to_file owidName c7t2] =
      Except.ok (save_bytes_to_file owidName c7t2) ∧
    get_latest_csv [save_bytes_to_file owidName c7t2,
        save_bytes_to_file owidName c7t1] =
      Except.ok (save_bytes_to_file owidName c7t2)) :=
  ⟨⟨rfl, rfl, rfl, by decide⟩,
   c7_latest_selects_later owidName c7t1 c7t2 rfl rfl rfl (by decide)⟩

end Covid
